import Mathlib

/-!
# Verification of the Aoclytic leaderboard transformation, cache and proxy logic

Shallow embedding of the pure data-reshaping core of the Aoclytic web app:

* `src/src/App.jsx`  — transformation layer (`findDefaultSelection`,
  `buildLeaderboard`, `buildPlayerSubmissions`, `computePartAvailability`),
  the submit handler with its 15-minute client cache;
* `src/unnamed/part_000` — an earlier variant of the same app (namespace `V0`);
* `src/unnamed/part_001` — the serverless proxy `handler`.

JSON objects become association lists in iteration order; optional JS fields
become `Option`; JS falsiness of a string is emptiness, of a number is zero.
The environment-dependent `new Date(ts * 1000).toLocaleString()` is abstracted
as an explicit formatting parameter `fmt : Nat → String`.
-/

/-- A completion record: `{ get_star_ts }`, unix seconds. -/
structure Completion where
  get_star_ts : Nat
deriving Repr, DecidableEq

/-- A leaderboard member.  `name` is optional in the JSON payload;
`completion_day_level` maps day-number strings to maps from part strings
("1" | "2") to completions, in object iteration order. -/
structure Member where
  id : Nat
  name : Option String
  completion_day_level : List (String × List (String × Completion))
deriving Repr, DecidableEq

/-- The raw leaderboard document: a mapping from member-id string to member,
in object iteration order. -/
structure LeaderboardDocument where
  members : List (String × Member)
deriving Repr, DecidableEq

/-- `Object.values(leaderboard?.members ?? {})`: the member list of a possibly
null document. -/
def membersOf : Option LeaderboardDocument → List Member
  | none => []
  | some lb => lb.members.map Prod.snd

/-- `member.completion_day_level?.[day]?.[part]`: optional-chained lookup of a
completion for a (day, part). -/
def getCompletion (member : Member) (day part : String) : Option Completion :=
  (member.completion_day_level.lookup day).bind (fun parts => parts.lookup part)

/-- `member.name || `Anonymous #${member.id}``: JS string falsiness means the
fallback fires when `name` is absent or the empty string. -/
def displayName (member : Member) : String :=
  match member.name with
  | some n => if n = "" then "Anonymous #" ++ toString member.id else n
  | none => "Anonymous #" ++ toString member.id

/-- `formatCompletionTime` of `src/src/App.jsx`: returns `""` for a falsy
(zero) timestamp, otherwise formats it.  `fmt` abstracts the
locale-dependent `new Date(timestamp * 1000).toLocaleString()`. -/
def formatCompletionTime (fmt : Nat → String) (timestamp : Nat) : String :=
  if timestamp = 0 then "" else fmt timestamp

/-- A leaderboard row before rank assignment. -/
structure BaseRow where
  id : Nat
  name : String
  completedAt : String
  timestamp : Nat
deriving Repr, DecidableEq

/-- A ranked leaderboard row (`{ ...row, rank }`). -/
structure RankedRow where
  id : Nat
  name : String
  completedAt : String
  timestamp : Nat
  rank : Nat
deriving Repr, DecidableEq

/-- Comparison used by `rows.sort((a, b) => a.timestamp - b.timestamp)`. -/
def rowLE (a b : BaseRow) : Prop := a.timestamp ≤ b.timestamp

instance : DecidableRel rowLE := fun a b => inferInstanceAs (Decidable (a.timestamp ≤ b.timestamp))

instance : IsTotal BaseRow rowLE := ⟨fun a b => Nat.le_total a.timestamp b.timestamp⟩

instance : IsTrans BaseRow rowLE := ⟨fun _ _ _ h h2 => Nat.le_trans h h2⟩

/-- `{ ...row, rank: index + 1 }` for the enumerated sorted row. -/
def withRank (p : Nat × BaseRow) : RankedRow :=
  { id := p.2.id, name := p.2.name, completedAt := p.2.completedAt,
    timestamp := p.2.timestamp, rank := p.1 + 1 }

/-- The `rows` array of `buildLeaderboard` before sorting: one row per member
holding a completion for (day, part), in member iteration order. -/
def leaderboardBaseRows (fmt : Nat → String) (lb : LeaderboardDocument)
    (day part : String) : List BaseRow :=
  (lb.members.map Prod.snd).filterMap (fun member =>
    match getCompletion member day part with
    | none => none
    | some completion =>
      some { id := member.id
             name := displayName member
             completedAt := formatCompletionTime fmt completion.get_star_ts
             timestamp := completion.get_star_ts })

/-- `buildLeaderboard(leaderboard, day, part)` of `src/src/App.jsx`: collect a
row per member holding a completion for (day, part), sort ascending by
timestamp (JS `sort` is stable; a stable sort is `insertionSort`), then assign
`rank = index + 1`. -/
def buildLeaderboard (fmt : Nat → String) (leaderboard : Option LeaderboardDocument)
    (day part : String) : List RankedRow :=
  match leaderboard with
  | none => []
  | some lb =>
    (((leaderboardBaseRows fmt lb day part).insertionSort rowLE).enum.map withRank)

/-- The numeric value of a decimal digit character, `none` otherwise. -/
def digitVal (c : Char) : Option Nat :=
  if c.isDigit then some (c.toNat - Char.toNat '0') else none

/-- Decimal reading of a character list: `some n` when every character is a
digit and the list is nonempty, `none` otherwise. -/
def natOfDigits : List Char → Option Nat
  | [] => none
  | cs =>
    cs.foldl
      (fun acc c =>
        match acc, digitVal c with
        | some n, some d => some (n * 10 + d)
        | _, _ => none)
      (some 0)

/-- JS `Number(s)` restricted to the decimal day-key strings of a well-formed
document (matches `Number` there; other strings are outside the data model). -/
def jsNum (s : String) : Nat := (natOfDigits s.data).getD 0

/-- A day-key string is canonical when it prints back to itself, i.e. it is
the decimal numeral of its numeric value (`"3"`, not `"03"`). -/
def canonKey (s : String) : Prop :=
  (natOfDigits s.data).map (fun n => toString n) = some s

instance (s : String) : Decidable (canonKey s) :=
  inferInstanceAs (Decidable (_ = _))

/-- All day keys appearing under any member, with multiplicity, in iteration
order (`members.flatMap(m => Object.keys(m.completion_day_level ?? {}))`). -/
def allDayKeys (members : List Member) : List String :=
  members.flatMap (fun member => member.completion_day_level.map Prod.fst)

/-- `findDefaultSelection(leaderboard)` of `src/src/App.jsx`: numerically
smallest day key (JS sorts the `Number`s ascending and takes index 0, falling
back to `"1"`), then part "2" if anyone solved part 2 of that day, else "1". -/
def findDefaultSelection (leaderboard : Option LeaderboardDocument) : String × String :=
  let members := membersOf leaderboard
  let allDays := allDayKeys members
  let firstDay :=
    match ((allDays.map jsNum).insertionSort (fun a b => a ≤ b)).head? with
    | some n => toString n
    | none => "1"
  let hasPart2 := members.any (fun member => (getCompletion member firstDay "2").isSome)
  let hasPart1 := members.any (fun member => (getCompletion member firstDay "1").isSome)
  (firstDay, if hasPart2 then "2" else if hasPart1 then "1" else "1")

/-- One row of the per-player submissions table. -/
structure SubmissionRow where
  day : String
  part : String
  completedAt : String
deriving Repr, DecidableEq

/-- `Object.values(leaderboard.members ?? {}).find(m => String(m.id) === String(playerId))`. -/
def findPlayer (leaderboard : Option LeaderboardDocument) (playerId : String) : Option Member :=
  (membersOf leaderboard).find? (fun member => toString member.id == playerId)

/-- The row `buildPlayerSubmissions` pushes for one (day, part) of the found
player: formatted completion time when the completion entry exists,
"Not completed" otherwise. -/
def submissionRowFor (fmt : Nat → String) (player : Member) (day part : String) : SubmissionRow :=
  { day := day, part := part,
    completedAt :=
      match getCompletion player day part with
      | some completion => formatCompletionTime fmt completion.get_star_ts
      | none => "Not completed" }

/-- `buildPlayerSubmissions(leaderboard, playerId, dayNumbers)` of
`src/src/App.jsx`: empty when the document is null or the id is empty or no
member's id string-equals it; otherwise one row per day in `dayNumbers` per
part in {1, 2}, day-major then part-minor. -/
def buildPlayerSubmissions (fmt : Nat → String) (leaderboard : Option LeaderboardDocument)
    (playerId : String) (dayNumbers : List String) : List SubmissionRow :=
  if leaderboard.isNone ∨ playerId = "" then []
  else
    match findPlayer leaderboard playerId with
    | none => []
    | some player =>
      dayNumbers.flatMap (fun day =>
        [1, 2].map (fun part => submissionRowFor fmt player day (toString part)))

/-- Overwrite-or-insert into the availability object: `availability[day] ??=
{1: false, 2: false}` appends a fresh entry for an unseen key; field writes
replace the entry in place. -/
def setAssoc {β : Type} (assoc : List (String × β)) (key : String) (value : β) :
    List (String × β) :=
  assoc.map (fun p => if p.1 = key then (key, value) else p)

/-- Processing one `[day, parts]` entry of a member inside
`computePartAvailability`. -/
def availStep (acc : List (String × (Bool × Bool))) (entry : String × List (String × Completion)) :
    List (String × (Bool × Bool)) :=
  let day := entry.1
  let parts := entry.2
  let acc := if (acc.lookup day).isSome then acc else acc ++ [(day, (false, false))]
  let cur := (acc.lookup day).getD (false, false)
  let cur := if (parts.lookup "1").isSome then (true, cur.2) else cur
  let cur := if (parts.lookup "2").isSome then (cur.1, true) else cur
  setAssoc acc day cur

/-- `computePartAvailability(leaderboard)` of `src/src/App.jsx`: a mapping
day → (part-1 solved by anyone, part-2 solved by anyone), built by iterating
members and their completion entries. -/
def computePartAvailability (leaderboard : Option LeaderboardDocument) :
    List (String × (Bool × Bool)) :=
  (membersOf leaderboard).foldl
    (fun acc member => member.completion_day_level.foldl availStep acc) []

namespace V0

/-- `findDefaultSelection` of `src/unnamed/part_000` (lines 11-34): textually
identical to the `src/src/App.jsx` version. -/
def findDefaultSelection (leaderboard : Option LeaderboardDocument) : String × String :=
  let members := membersOf leaderboard
  let allDays := allDayKeys members
  let firstDay :=
    match ((allDays.map jsNum).insertionSort (fun a b => a ≤ b)).head? with
    | some n => toString n
    | none => "1"
  let hasPart2 := members.any (fun member => (getCompletion member firstDay "2").isSome)
  let hasPart1 := members.any (fun member => (getCompletion member firstDay "1").isSome)
  (firstDay, if hasPart2 then "2" else if hasPart1 then "1" else "1")

/-- `computePartAvailability` of `src/unnamed/part_000` (lines 59-73):
textually identical to the `src/src/App.jsx` version. -/
def computePartAvailability (leaderboard : Option LeaderboardDocument) :
    List (String × (Bool × Bool)) :=
  (membersOf leaderboard).foldl
    (fun acc member => member.completion_day_level.foldl availStep acc) []

end V0

/-- A client-cache entry: `{ data, fetchedAt }`, keyed by `year:code`. -/
structure CacheEntry where
  data : LeaderboardDocument
  fetchedAt : Nat
deriving Repr, DecidableEq

/-- `15 * 60 * 1000` milliseconds. -/
def FIFTEEN_MIN : Nat := 15 * 60 * 1000

/-- Outcome of an awaited `fetch` together with the subsequent `.json()`:
either a response with a status and a JSON-parse result, or a thrown
network error carrying `err.message`. -/
inductive FetchOutcome where
  | response (status : Nat) (jsonRes : Except String LeaderboardDocument)
  | networkError (msg : String)
deriving Repr

/-- `response.ok` of the Fetch API: status in the 2xx range. -/
def respOk (status : Nat) : Bool := 200 ≤ status && status ≤ 299

/-- The inline validation message of `handleSubmit`. -/
def validationMessage : String :=
  "Please enter both the private leaderboard code and your AoC session token."

/-- The error message thrown on a non-ok response in `handleSubmit`. -/
def unableMessage (status : Nat) : String :=
  "Unable to load leaderboard (status " ++ toString status ++ "). " ++
    "Ensure you are signed in to Advent of Code and have access to this board."

/-- The generic fallback of `err.message || "Something went wrong while loading data."`. -/
def genericErrorMessage : String := "Something went wrong while loading data."

/-- JS `String.prototype.trim`: strip leading and trailing whitespace. -/
def jsTrim (s : String) : String :=
  ⟨((s.data.dropWhile Char.isWhitespace).reverse.dropWhile Char.isWhitespace).reverse⟩

/-- Object-assignment semantics of `cacheRef.current[cacheKey] = entry`:
replace the binding when the key exists, append it otherwise. -/
def cacheSet (cache : List (String × CacheEntry)) (key : String) (entry : CacheEntry) :
    List (String × CacheEntry) :=
  if (cache.lookup key).isSome then setAssoc cache key entry
  else cache ++ [(key, entry)]

/-- The observable outcome of one `handleSubmit` invocation: the inline error
(if any), whether `fetch` was called, the cache afterwards, and the
leaderboard document loaded into state (if any). -/
structure SubmitOutcome where
  error : Option String
  networkCalled : Bool
  cache : List (String × CacheEntry)
  loaded : Option LeaderboardDocument
deriving Repr, DecidableEq

/-- The fetch path of `handleSubmit` (the code after the cache check in the
`try` block): throw on a non-ok response, otherwise parse the JSON, store it
in the cache under `cacheKey` with the `Date.now()` reading `now2`, and load
it; a thrown error lands in the `catch` clause, which reports `err.message`
or the generic fallback. -/
def fetchFlow (cacheKey : String) (cache : List (String × CacheEntry)) (now2 : Nat)
    (fetchOutcome : FetchOutcome) : SubmitOutcome :=
  match fetchOutcome with
  | .networkError msg =>
    { error := some (if msg = "" then genericErrorMessage else msg),
      networkCalled := true, cache := cache, loaded := none }
  | .response status jsonRes =>
    if ¬respOk status then
      { error := some (unableMessage status), networkCalled := true,
        cache := cache, loaded := none }
    else
      match jsonRes with
      | .error msg =>
        { error := some (if msg = "" then genericErrorMessage else msg),
          networkCalled := true, cache := cache, loaded := none }
      | .ok json =>
        { error := none, networkCalled := true,
          cache := cacheSet cache cacheKey { data := json, fetchedAt := now2 },
          loaded := some json }

/-- `handleSubmit` of `src/src/App.jsx` (lines 162-220), as a function of the
form fields, the user's confirm choice, the cache, the two `Date.now()`
readings (`now` at the freshness check, `now2` at the store), and the fetch
outcome.  Validation checks only the trimmed leaderboard code and session
token; the cache is consulted before fetching and overwritten only after an
ok response whose JSON parses. -/
def handleSubmit (year leaderboardCode sessionToken : String) (confirmed : Bool)
    (cache : List (String × CacheEntry)) (now now2 : Nat)
    (fetchOutcome : FetchOutcome) : SubmitOutcome :=
  if jsTrim leaderboardCode = "" ∨ jsTrim sessionToken = "" then
    { error := some validationMessage, networkCalled := false, cache := cache, loaded := none }
  else if ¬confirmed then
    { error := none, networkCalled := false, cache := cache, loaded := none }
  else
    let cacheKey := year ++ ":" ++ leaderboardCode
    match cache.lookup cacheKey with
    | some cached =>
      if now - cached.fetchedAt < FIFTEEN_MIN then
        { error := none, networkCalled := false, cache := cache, loaded := some cached.data }
      else fetchFlow cacheKey cache now2 fetchOutcome
    | none => fetchFlow cacheKey cache now2 fetchOutcome

/-- The body fields of a proxy request; each may be absent. -/
structure ReqBody where
  year : Option String
  leaderboardCode : Option String
  sessionToken : Option String
deriving Repr, DecidableEq

/-- An incoming proxy request: HTTP method and optional JSON body. -/
structure ProxyRequest where
  method : String
  body : Option ReqBody
deriving Repr, DecidableEq

/-- The body of a proxy response: `res.end()` sends none, `res.json({error})`
an error object, `res.json(data)` the upstream document. -/
inductive ResponseBody where
  | empty
  | errorJson (msg : String)
  | json (data : LeaderboardDocument)
deriving Repr, DecidableEq

/-- A proxy response: status code and body. -/
structure ProxyResponse where
  status : Nat
  body : ResponseBody
deriving Repr, DecidableEq

/-- JS falsiness of a destructured body field: absent or the empty string. -/
def fieldFalsy : Option String → Bool
  | none => true
  | some s => s = ""

/-- `const { year, leaderboardCode, sessionToken } = req.body || {}`. -/
def requestFields (req : ProxyRequest) : ReqBody :=
  req.body.getD { year := none, leaderboardCode := none, sessionToken := none }

/-- `handler(req, res)` of `src/unnamed/part_001`, as a function of the
request and the upstream fetch outcome: 204 for OPTIONS, 405 for other
non-POST methods, 400 when a body field is falsy, the upstream's own status
with `{error}` when the upstream responds non-2xx, 200 with the upstream JSON
on success, and 500 with `{error}` when the fetch or the JSON parse throws. -/
def handler (req : ProxyRequest) (upstream : FetchOutcome) : ProxyResponse :=
  if req.method = "OPTIONS" then { status := 204, body := .empty }
  else if req.method ≠ "POST" then { status := 405, body := .empty }
  else
    let fields := requestFields req
    if fieldFalsy fields.year ∨ fieldFalsy fields.leaderboardCode ∨
        fieldFalsy fields.sessionToken then
      { status := 400, body := .errorJson "Missing required fields" }
    else
      match upstream with
      | .networkError msg =>
        { status := 500, body := .errorJson (if msg = "" then "Fetch failed" else msg) }
      | .response status jsonRes =>
        if ¬respOk status then
          { status := status, body := .errorJson ("Upstream status " ++ toString status) }
        else
          match jsonRes with
          | .ok data => { status := 200, body := .json data }
          | .error msg =>
            { status := 500, body := .errorJson (if msg = "" then "Fetch failed" else msg) }

/-! ## Example documents -/

/-- The spec's worked example: member 1 "Ann" solved day 1 parts 1 and 2 at
timestamps 1000 and 2000, member 2 (anonymous) solved day 1 part 1 at 500. -/
def exampleDocument : LeaderboardDocument :=
  { members :=
      [("1", { id := 1, name := some "Ann",
               completion_day_level := [("1", [("1", ⟨1000⟩), ("2", ⟨2000⟩)])] }),
       ("2", { id := 2, name := none,
               completion_day_level := [("1", [("1", ⟨500⟩)])] })] }

/-- A document whose earliest day is "3" and where only part 1 of day 3 is
solved by anyone (the sole member also solved both parts of day 5). -/
def day3Document : LeaderboardDocument :=
  { members :=
      [("7", { id := 7, name := none,
               completion_day_level :=
                 [("5", [("1", ⟨10⟩), ("2", ⟨20⟩)]), ("3", [("1", ⟨30⟩)])] })] }

/-- A concrete stand-in for the locale-dependent time formatter, used to
instantiate witnesses. -/
def constFmt : Nat → String := fun _ => "t"

/-- A fully populated proxy request body for witnesses. -/
def postBody : ReqBody :=
  { year := some "2024", leaderboardCode := some "c", sessionToken := some "s" }

/-- A document whose only member has a zero `get_star_ts` on day 1 part 1. -/
def zeroTsDocument : LeaderboardDocument :=
  { members :=
      [("3", { id := 3, name := some "Zed",
               completion_day_level := [("1", [("1", ⟨0⟩)])] })] }

/-! ## Ordering facts about `buildLeaderboard` -/

/-- Comparison of ranked rows by timestamp. -/
def rankedLE (a b : RankedRow) : Prop := a.timestamp ≤ b.timestamp

theorem buildLeaderboard_none (fmt : Nat → String) (day part : String) :
    buildLeaderboard fmt none day part = [] := rfl

theorem buildLeaderboard_some (fmt : Nat → String) (lb : LeaderboardDocument)
    (day part : String) :
    buildLeaderboard fmt (some lb) day part =
      ((leaderboardBaseRows fmt lb day part).insertionSort rowLE).enum.map withRank := rfl

theorem length_buildLeaderboard_some (fmt : Nat → String) (lb : LeaderboardDocument)
    (day part : String) :
    (buildLeaderboard fmt (some lb) day part).length =
      ((leaderboardBaseRows fmt lb day part).insertionSort rowLE).length := by
  simp [buildLeaderboard_some]

theorem getElem_buildLeaderboard_some (fmt : Nat → String) (lb : LeaderboardDocument)
    (day part : String) (i : Nat)
    (h : i < ((leaderboardBaseRows fmt lb day part).insertionSort rowLE).length) :
    (buildLeaderboard fmt (some lb) day part).get
        ⟨i, by rw [length_buildLeaderboard_some]; exact h⟩ =
      withRank (i, ((leaderboardBaseRows fmt lb day part).insertionSort rowLE).get ⟨i, h⟩) := by
  simp [buildLeaderboard_some]

/-- C1: for every leaderboard document, day and part, `buildLeaderboard`
returns rows sorted by non-decreasing timestamp with `rank` equal to the
1-based position; on the spec's example document, day 1 part 1 yields id 2
"Anonymous #2" at rank 1 followed by id 1 "Ann" at rank 2. -/
theorem C1_buildLeaderboard_sorted_ranked :
    (∀ (fmt : Nat → String) (leaderboard : Option LeaderboardDocument) (day part : String),
        List.Sorted rankedLE (buildLeaderboard fmt leaderboard day part)
        ∧ ∀ (i : Nat) (h : i < (buildLeaderboard fmt leaderboard day part).length),
            ((buildLeaderboard fmt leaderboard day part).get ⟨i, h⟩).rank = i + 1)
    ∧ ∀ fmt : Nat → String,
        (buildLeaderboard fmt (some exampleDocument) "1" "1").map
            (fun row => (row.id, row.name, row.rank)) =
          [(2, "Anonymous #2", 1), (1, "Ann", 2)] := by
  constructor
  · intro fmt leaderboard day part
    cases leaderboard with
    | none =>
      refine ⟨List.sorted_nil, ?_⟩
      intro i h
      simp [buildLeaderboard_none] at h
    | some lb =>
      have hs : List.Sorted rowLE ((leaderboardBaseRows fmt lb day part).insertionSort rowLE) :=
        List.sorted_insertionSort rowLE _
      constructor
      · rw [List.Sorted, List.pairwise_iff_getElem]
        intro i j hi hj hij
        rw [length_buildLeaderboard_some] at hi hj
        have hp := List.pairwise_iff_getElem.mp hs i j hi hj hij
        simp only [buildLeaderboard_some, List.getElem_map, List.getElem_enum]
        exact hp
      · intro i h
        have hi : i < ((leaderboardBaseRows fmt lb day part).insertionSort rowLE).length := by
          rw [length_buildLeaderboard_some] at h
          exact h
        simp [buildLeaderboard_some, List.get_eq_getElem, withRank]
  · intro fmt
    rfl

/-- C2: every row of `buildLeaderboard` comes from a member with a completion
entry for the requested (day, part) carrying exactly that timestamp, and
`buildPlayerSubmissions` marks a row "Not completed" whenever the player's
completion entry for that (day, part) is absent — derived rows never
synthesize a completion missing from the source document. -/
theorem C2_rows_from_existing_completions :
    ∀ (fmt : Nat → String) (leaderboard : Option LeaderboardDocument),
      (∀ (day part : String) (row : RankedRow), row ∈ buildLeaderboard fmt leaderboard day part →
        ∃ member ∈ membersOf leaderboard,
          member.id = row.id ∧ getCompletion member day part = some ⟨row.timestamp⟩)
      ∧ ∀ (playerId : String) (dayNumbers : List String) (player : Member),
          findPlayer leaderboard playerId = some player →
          ∀ row ∈ buildPlayerSubmissions fmt leaderboard playerId dayNumbers,
            getCompletion player row.day row.part = none → row.completedAt = "Not completed" := by
  intro fmt leaderboard
  constructor
  · intro day part row hrow
    cases leaderboard with
    | none => simp [buildLeaderboard_none] at hrow
    | some lb =>
      rw [buildLeaderboard_some] at hrow
      obtain ⟨⟨i, base⟩, hmem, hwr⟩ := List.mem_map.mp hrow
      have hbase : base ∈ (leaderboardBaseRows fmt lb day part).insertionSort rowLE :=
        List.getElem?_mem (List.mem_enum_iff_getElem?.mp hmem)
      have hbase2 : base ∈ leaderboardBaseRows fmt lb day part :=
        (List.perm_insertionSort rowLE _).mem_iff.mp hbase
      obtain ⟨member, hmemb, hf⟩ := List.mem_filterMap.mp hbase2
      refine ⟨member, hmemb, ?_, ?_⟩
      · cases hc : getCompletion member day part with
        | none => rw [hc] at hf; simp at hf
        | some c =>
          rw [hc] at hf
          simp only [Option.some.injEq] at hf
          rw [← hwr, ← hf]
          rfl
      · cases hc : getCompletion member day part with
        | none => rw [hc] at hf; simp at hf
        | some c =>
          rw [hc] at hf
          simp only [Option.some.injEq] at hf
          rw [← hwr, ← hf]
          rfl
  · intro playerId dayNumbers player hfind row hrow hnone
    unfold buildPlayerSubmissions at hrow
    by_cases hguard : leaderboard.isNone = true ∨ playerId = ""
    · simp only [if_pos hguard] at hrow
      simp at hrow
    · simp only [if_neg hguard] at hrow
      rw [hfind] at hrow
      obtain ⟨day, hday, hrow2⟩ := List.mem_flatMap.mp hrow
      obtain ⟨part, hpart, hsub⟩ := List.mem_map.mp hrow2
      have hd : row.day = day := by rw [← hsub]; rfl
      have hp : row.part = toString part := by rw [← hsub]; rfl
      rw [← hsub]
      simp only [submissionRowFor]
      rw [← hd, ← hp, hnone]

theorem length_flatMap_pair {α β : Type} (f g : α → β) :
    ∀ l : List α, (l.flatMap fun a => [f a, g a]).length = 2 * l.length
  | [] => rfl
  | a :: t => by
    rw [List.flatMap_cons]
    simp [length_flatMap_pair f g t]
    omega

theorem flatMap_pair_getElem? {α β : Type} (f g : α → β) :
    ∀ (l : List α) (i : Nat),
      ((l.flatMap fun a => [f a, g a])[2 * i]? = (l[i]?).map f)
      ∧ ((l.flatMap fun a => [f a, g a])[2 * i + 1]? = (l[i]?).map g)
  | [], i => by simp
  | a :: t, 0 => by
    rw [List.flatMap_cons]
    simp
  | a :: t, i + 1 => by
    have ih := flatMap_pair_getElem? f g t i
    have h2 : 2 * (i + 1) = 2 * i + 1 + 1 := by ring
    rw [List.flatMap_cons, h2]
    constructor
    · show (f a :: g a :: (t.flatMap fun a => [f a, g a]))[2 * i + 1 + 1]? = _
      rw [List.getElem?_cons_succ, List.getElem?_cons_succ, List.getElem?_cons_succ]
      exact ih.1
    · show (f a :: g a :: (t.flatMap fun a => [f a, g a]))[2 * i + 1 + 1 + 1]? = _
      rw [List.getElem?_cons_succ, List.getElem?_cons_succ, List.getElem?_cons_succ]
      exact ih.2

theorem findPlayer_none_of_doc_none (playerId : String) :
    findPlayer none playerId = none := rfl

theorem buildPlayerSubmissions_found (fmt : Nat → String)
    (leaderboard : Option LeaderboardDocument) (playerId : String)
    (dayNumbers : List String) (player : Member) (hpid : playerId ≠ "")
    (hfind : findPlayer leaderboard playerId = some player) :
    buildPlayerSubmissions fmt leaderboard playerId dayNumbers =
      dayNumbers.flatMap (fun day =>
        [submissionRowFor fmt player day "1", submissionRowFor fmt player day "2"]) := by
  have hlb : leaderboard.isNone = false := by
    cases leaderboard with
    | none => exact absurd hfind (by simp [findPlayer, membersOf])
    | some lb => rfl
  unfold buildPlayerSubmissions
  rw [if_neg (by simp [hlb, hpid]), hfind]
  rfl

/-- C5: `buildPlayerSubmissions` returns the empty sequence when the id is
empty or matches no member; otherwise it returns `2 * len(dayNumbers)` rows in
day-major then part-minor order ("1" before "2"), each row carrying the
formatted completion time when the completion entry exists and
"Not completed" otherwise. -/
theorem C5_buildPlayerSubmissions_shape :
    ∀ (fmt : Nat → String) (leaderboard : Option LeaderboardDocument)
      (playerId : String) (dayNumbers : List String),
      ((playerId = "" ∨ findPlayer leaderboard playerId = none) →
        buildPlayerSubmissions fmt leaderboard playerId dayNumbers = [])
      ∧ ∀ player : Member, playerId ≠ "" →
          findPlayer leaderboard playerId = some player →
          (buildPlayerSubmissions fmt leaderboard playerId dayNumbers).length =
              2 * dayNumbers.length
          ∧ (∀ i : Nat,
              ((buildPlayerSubmissions fmt leaderboard playerId dayNumbers)[2 * i]? =
                (dayNumbers[i]?).map (fun day => submissionRowFor fmt player day "1"))
              ∧ ((buildPlayerSubmissions fmt leaderboard playerId dayNumbers)[2 * i + 1]? =
                (dayNumbers[i]?).map (fun day => submissionRowFor fmt player day "2")))
          ∧ ∀ row ∈ buildPlayerSubmissions fmt leaderboard playerId dayNumbers,
              row.completedAt =
                match getCompletion player row.day row.part with
                | some completion => formatCompletionTime fmt completion.get_star_ts
                | none => "Not completed" := by
  intro fmt leaderboard playerId dayNumbers
  constructor
  · intro h
    cases h with
    | inl hpid =>
      unfold buildPlayerSubmissions
      rw [if_pos (Or.inr hpid)]
    | inr hnone =>
      unfold buildPlayerSubmissions
      by_cases hguard : leaderboard.isNone = true ∨ playerId = ""
      · rw [if_pos hguard]
      · rw [if_neg hguard, hnone]
  · intro player hpid hfind
    rw [buildPlayerSubmissions_found fmt leaderboard playerId dayNumbers player hpid hfind]
    refine ⟨length_flatMap_pair _ _ dayNumbers, fun i => flatMap_pair_getElem? _ _ dayNumbers i, ?_⟩
    intro row hrow
    obtain ⟨day, hday, hrow2⟩ := List.mem_flatMap.mp hrow
    have : row = submissionRowFor fmt player day "1" ∨
        row = submissionRowFor fmt player day "2" := by
      simp at hrow2
      tauto
    cases this with
    | inl h1 =>
      subst h1
      simp only [submissionRowFor]
    | inr h2 =>
      subst h2
      simp only [submissionRowFor]

theorem head_insertionSort_min (l : List Nat) (m : Nat)
    (h : (l.insertionSort fun a b => a ≤ b).head? = some m) : m ∈ l ∧ ∀ x ∈ l, m ≤ x := by
  have hperm : List.Perm (l.insertionSort fun a b => a ≤ b) l := List.perm_insertionSort _ l
  have hsort : List.Sorted (fun a b => a ≤ b) (l.insertionSort fun a b => a ≤ b) :=
    List.sorted_insertionSort _ l
  cases hs : (l.insertionSort fun a b => a ≤ b) with
  | nil => rw [hs] at h; simp at h
  | cons x t =>
    rw [hs] at h
    simp at h
    rw [hs] at hperm hsort
    cases h
    constructor
    · exact hperm.mem_iff.mp (List.mem_cons_self _ _)
    · intro y hy
      have hy2 := hperm.mem_iff.mpr hy
      cases List.mem_cons.mp hy2 with
      | inl heq => subst heq; exact Nat.le_refl _
      | inr ht => exact List.rel_of_sorted_cons hsort _ ht

theorem findDefaultSelection_day (leaderboard : Option LeaderboardDocument) :
    (findDefaultSelection leaderboard).1 =
      match (((allDayKeys (membersOf leaderboard)).map jsNum).insertionSort
          fun a b => a ≤ b).head? with
      | some n => toString n
      | none => "1" := rfl

theorem findDefaultSelection_part (leaderboard : Option LeaderboardDocument) :
    (findDefaultSelection leaderboard).2 =
      (if (membersOf leaderboard).any (fun member =>
            (getCompletion member (findDefaultSelection leaderboard).1 "2").isSome) then "2"
       else if (membersOf leaderboard).any (fun member =>
            (getCompletion member (findDefaultSelection leaderboard).1 "1").isSome) then "1"
       else "1") := rfl

/-- C4: `findDefaultSelection` returns the numerically smallest day key
appearing under any member (or "1" when there is none), and part "2" exactly
when some member completed part 2 of that day, else "1"; on a document whose
earliest day is "3" with only part 1 solved it returns ("3", "1").  Day keys
are assumed canonical decimal numerals, as in well-formed documents. -/
theorem C4_findDefaultSelection_smallest_day :
    (∀ leaderboard : Option LeaderboardDocument,
      (∀ d ∈ allDayKeys (membersOf leaderboard), canonKey d) →
      (allDayKeys (membersOf leaderboard) = [] → (findDefaultSelection leaderboard).1 = "1")
      ∧ (allDayKeys (membersOf leaderboard) ≠ [] →
          (findDefaultSelection leaderboard).1 ∈ allDayKeys (membersOf leaderboard)
          ∧ ∀ d ∈ allDayKeys (membersOf leaderboard),
              jsNum (findDefaultSelection leaderboard).1 ≤ jsNum d)
      ∧ ((∃ m ∈ membersOf leaderboard,
            (getCompletion m (findDefaultSelection leaderboard).1 "2").isSome) →
          (findDefaultSelection leaderboard).2 = "2")
      ∧ (¬(∃ m ∈ membersOf leaderboard,
            (getCompletion m (findDefaultSelection leaderboard).1 "2").isSome) →
          (findDefaultSelection leaderboard).2 = "1"))
    ∧ findDefaultSelection (some day3Document) = ("3", "1") := by
  constructor
  · intro leaderboard hcanon
    refine ⟨?_, ?_, ?_, ?_⟩
    · intro hempty
      rw [findDefaultSelection_day, hempty]
      rfl
    · intro hne
      have hlen : (((allDayKeys (membersOf leaderboard)).map jsNum).insertionSort
          fun a b => a ≤ b).length = ((allDayKeys (membersOf leaderboard)).map jsNum).length :=
        (List.perm_insertionSort _ _).length_eq
      have hne2 : (((allDayKeys (membersOf leaderboard)).map jsNum).insertionSort
          fun a b => a ≤ b) ≠ [] := by
        intro hnil
        rw [hnil] at hlen
        simp at hlen
        exact hne (List.length_eq_zero.mp hlen.symm)
      obtain ⟨m, hm⟩ := Option.ne_none_iff_exists'.mp
        (mt List.head?_eq_none_iff.mp hne2)
      obtain ⟨hmem, hmin⟩ := head_insertionSort_min _ m hm
      obtain ⟨d, hd, hjd⟩ := List.mem_map.mp hmem
      obtain ⟨n, hn, hnd⟩ := Option.map_eq_some'.mp (hcanon d hd)
      have hday : (findDefaultSelection leaderboard).1 = d := by
        rw [findDefaultSelection_day, hm, ← hjd, jsNum, hn]
        exact hnd
      rw [hday]
      refine ⟨hd, ?_⟩
      intro d2 hd2
      rw [hjd]
      exact hmin (jsNum d2) (List.mem_map.mpr ⟨d2, hd2, rfl⟩)
    · intro hex
      rw [findDefaultSelection_part, if_pos ?_]
      rw [List.any_eq_true]
      obtain ⟨m, hm, h2⟩ := hex
      exact ⟨m, hm, h2⟩
    · intro hnex
      rw [findDefaultSelection_part, if_neg ?_]
      · cases h1 : (membersOf leaderboard).any (fun member =>
            (getCompletion member (findDefaultSelection leaderboard).1 "1").isSome) <;> simp [h1]
      · rw [List.any_eq_true]
        intro ⟨m, hm, h2⟩
        exact hnex ⟨m, hm, h2⟩
  · decide

theorem lookup_setAssoc_self {β : Type} (c : List (String × β)) (k : String) (v : β)
    (h : (c.lookup k).isSome) : (setAssoc c k v).lookup k = some v := by
  induction c with
  | nil => simp [List.lookup] at h
  | cons p t ih =>
    obtain ⟨a, b⟩ := p
    simp only [setAssoc, List.map_cons]
    by_cases ha : a = k
    · subst ha
      rw [if_pos (show (a, b).1 = a from rfl)]
      simp [List.lookup]
    · rw [if_neg (show ¬(a, b).1 = k from ha)]
      have hk : (k == a) = false := beq_eq_false_iff_ne.mpr (fun hh => ha hh.symm)
      simp only [List.lookup, hk] at h ⊢
      simpa [setAssoc] using ih h

theorem lookup_append_single {β : Type} (c : List (String × β)) (k : String) (v : β)
    (h : c.lookup k = none) : (c ++ [(k, v)]).lookup k = some v := by
  induction c with
  | nil => simp [List.lookup]
  | cons p t ih =>
    obtain ⟨a, b⟩ := p
    by_cases ha : (k == a) = true
    · simp [List.lookup, ha] at h
    · simp only [Bool.not_eq_true] at ha
      simp only [List.lookup, ha] at h
      simp only [List.cons_append, List.lookup, ha]
      exact ih h

theorem lookup_cacheSet (c : List (String × CacheEntry)) (k : String) (v : CacheEntry) :
    (cacheSet c k v).lookup k = some v := by
  unfold cacheSet
  by_cases h : (c.lookup k).isSome
  · rw [if_pos h]
    exact lookup_setAssoc_self c k v h
  · rw [if_neg h]
    exact lookup_append_single c k v (Option.not_isSome_iff_eq_none.mp h)

theorem fetchFlow_networkCalled (cacheKey : String) (cache : List (String × CacheEntry))
    (now2 : Nat) (f : FetchOutcome) : (fetchFlow cacheKey cache now2 f).networkCalled = true := by
  cases f with
  | networkError msg => rfl
  | response status jsonRes =>
    by_cases hok : respOk status = true
    · cases jsonRes with
      | error msg => simp [fetchFlow, hok]
      | ok json => simp [fetchFlow, hok]
    · simp [fetchFlow, hok]

theorem fetchFlow_ok (cacheKey : String) (cache : List (String × CacheEntry)) (now2 : Nat)
    (status : Nat) (json : LeaderboardDocument) (hok : respOk status = true) :
    fetchFlow cacheKey cache now2 (.response status (.ok json)) =
      { error := none, networkCalled := true,
        cache := cacheSet cache cacheKey { data := json, fetchedAt := now2 },
        loaded := some json } := by
  simp [fetchFlow, hok]

theorem handleSubmit_stale (year code token : String) (cache : List (String × CacheEntry))
    (now now2 : Nat) (f : FetchOutcome)
    (hcode : jsTrim code ≠ "") (htoken : jsTrim token ≠ "")
    (hstale : ∀ e, cache.lookup (year ++ ":" ++ code) = some e →
      FIFTEEN_MIN ≤ now - e.fetchedAt) :
    handleSubmit year code token true cache now now2 f =
      fetchFlow (year ++ ":" ++ code) cache now2 f := by
  unfold handleSubmit
  rw [if_neg (by simp [hcode, htoken]), if_neg (by simp)]
  show (match cache.lookup (year ++ ":" ++ code) with
    | some cached =>
      if now - cached.fetchedAt < FIFTEEN_MIN then
        { error := none, networkCalled := false, cache := cache, loaded := some cached.data }
      else fetchFlow (year ++ ":" ++ code) cache now2 f
    | none => fetchFlow (year ++ ":" ++ code) cache now2 f) =
    fetchFlow (year ++ ":" ++ code) cache now2 f
  cases hl : cache.lookup (year ++ ":" ++ code) with
  | none => rfl
  | some cached =>
    have hge := hstale cached hl
    show (if now - cached.fetchedAt < FIFTEEN_MIN then
        { error := none, networkCalled := false, cache := cache, loaded := some cached.data }
      else fetchFlow (year ++ ":" ++ code) cache now2 f) =
      fetchFlow (year ++ ":" ++ code) cache now2 f
    rw [if_neg (by omega)]

theorem handleSubmit_fresh (year code token : String) (cache : List (String × CacheEntry))
    (now now2 : Nat) (f : FetchOutcome) (data : LeaderboardDocument) (t1 : Nat)
    (hcode : jsTrim code ≠ "") (htoken : jsTrim token ≠ "")
    (hl : cache.lookup (year ++ ":" ++ code) = some { data := data, fetchedAt := t1 })
    (hfresh : now - t1 < FIFTEEN_MIN) :
    handleSubmit year code token true cache now now2 f =
      { error := none, networkCalled := false, cache := cache, loaded := some data } := by
  unfold handleSubmit
  rw [if_neg (by simp [hcode, htoken]), if_neg (by simp)]
  show (match cache.lookup (year ++ ":" ++ code) with
    | some cached =>
      if now - cached.fetchedAt < FIFTEEN_MIN then
        { error := none, networkCalled := false, cache := cache, loaded := some cached.data }
      else fetchFlow (year ++ ":" ++ code) cache now2 f
    | none => fetchFlow (year ++ ":" ++ code) cache now2 f : SubmitOutcome) =
    { error := none, networkCalled := false, cache := cache, loaded := some data }
  rw [hl]
  show (if now - t1 < FIFTEEN_MIN then
      { error := none, networkCalled := false, cache := cache, loaded := some data }
    else fetchFlow (year ++ ":" ++ code) cache now2 f) =
    { error := none, networkCalled := false, cache := cache, loaded := some data }
  rw [if_pos hfresh]

/-- C3: for a submit with valid code and token at time `t2`, a cache entry for
`year:code` fetched at `t1` with `t2 - t1 < 15` minutes is returned without a
network call and the cache is unchanged; when no entry is fresh, the fetch
runs and, on an ok response with parsed JSON, the entry for the key is
overwritten with the new data and the new timestamp. -/
theorem C3_cache_freshness :
    ∀ (year code token : String) (cache : List (String × CacheEntry))
      (t1 t2 now2 : Nat) (data : LeaderboardDocument) (f : FetchOutcome),
      jsTrim code ≠ "" → jsTrim token ≠ "" →
      ((cache.lookup (year ++ ":" ++ code) = some { data := data, fetchedAt := t1 } →
        t2 - t1 < FIFTEEN_MIN →
        handleSubmit year code token true cache t2 now2 f =
          { error := none, networkCalled := false, cache := cache, loaded := some data })
      ∧ ((∀ e, cache.lookup (year ++ ":" ++ code) = some e →
            FIFTEEN_MIN ≤ t2 - e.fetchedAt) →
          (handleSubmit year code token true cache t2 now2 f).networkCalled = true
          ∧ ∀ (status : Nat) (json : LeaderboardDocument),
              f = .response status (.ok json) → respOk status = true →
              ((handleSubmit year code token true cache t2 now2 f).cache).lookup
                  (year ++ ":" ++ code) = some { data := json, fetchedAt := now2 })) := by
  intro year code token cache t1 t2 now2 data f hcode htoken
  constructor
  · intro hl hfresh
    exact handleSubmit_fresh year code token cache t2 now2 f data t1 hcode htoken hl hfresh
  · intro hstale
    have heq := handleSubmit_stale year code token cache t2 now2 f hcode htoken hstale
    constructor
    · rw [heq]
      exact fetchFlow_networkCalled _ _ _ _
    · intro status json hf hok
      rw [heq, hf, fetchFlow_ok _ _ _ _ _ hok]
      exact lookup_cacheSet cache (year ++ ":" ++ code) { data := json, fetchedAt := now2 }

/-- C6: the proxy handler responds 204 to OPTIONS, 405 to other non-POST
methods, 400 with an error JSON body when a body field is missing, the
upstream's own non-2xx status with an error JSON body, 200 with the upstream
JSON on success, and 500 with an error JSON body when the fetch or the JSON
parse throws. -/
theorem C6_handler_responses :
    ∀ (req : ProxyRequest) (upstream : FetchOutcome),
      (req.method = "OPTIONS" → handler req upstream = { status := 204, body := .empty })
      ∧ (req.method ≠ "OPTIONS" → req.method ≠ "POST" →
          handler req upstream = { status := 405, body := .empty })
      ∧ (req.method = "POST" →
          ((requestFields req).year = none ∨ (requestFields req).leaderboardCode = none ∨
            (requestFields req).sessionToken = none) →
          (handler req upstream).status = 400
          ∧ ∃ msg, (handler req upstream).body = .errorJson msg)
      ∧ (req.method = "POST" →
          fieldFalsy (requestFields req).year = false →
          fieldFalsy (requestFields req).leaderboardCode = false →
          fieldFalsy (requestFields req).sessionToken = false →
          (∀ (status : Nat) (jsonRes : Except String LeaderboardDocument),
              upstream = .response status jsonRes → respOk status = false →
              (handler req upstream).status = status
              ∧ ∃ msg, (handler req upstream).body = .errorJson msg)
          ∧ (∀ (status : Nat) (data : LeaderboardDocument),
              upstream = .response status (.ok data) → respOk status = true →
              handler req upstream = { status := 200, body := .json data })
          ∧ (((∃ msg, upstream = .networkError msg) ∨
              (∃ status msg, upstream = .response status (.error msg) ∧ respOk status = true)) →
              (handler req upstream).status = 500
              ∧ ∃ msg, (handler req upstream).body = .errorJson msg)) := by
  intro req upstream
  refine ⟨?_, ?_, ?_, ?_⟩
  · intro h
    unfold handler
    rw [if_pos h]
  · intro h1 h2
    unfold handler
    rw [if_neg h1, if_pos h2]
  · intro hpost hmiss
    have hm : req.method ≠ "OPTIONS" := by rw [hpost]; decide
    have hfalsy : (fieldFalsy (requestFields req).year ∨
        fieldFalsy (requestFields req).leaderboardCode ∨
        fieldFalsy (requestFields req).sessionToken) := by
      cases hmiss with
      | inl h => left; rw [h]; rfl
      | inr h => cases h with
        | inl h => right; left; rw [h]; rfl
        | inr h => right; right; rw [h]; rfl
    unfold handler
    rw [if_neg hm, if_neg (by rw [hpost]; simp), if_pos hfalsy]
    exact ⟨rfl, "Missing required fields", rfl⟩
  · intro hpost hy hc ht
    have hm : req.method ≠ "OPTIONS" := by rw [hpost]; decide
    have hok : ¬(fieldFalsy (requestFields req).year ∨
        fieldFalsy (requestFields req).leaderboardCode ∨
        fieldFalsy (requestFields req).sessionToken) := by
      simp [hy, hc, ht]
    refine ⟨?_, ?_, ?_⟩
    · intro status jsonRes hu hnok
      subst hu
      unfold handler
      rw [if_neg hm, if_neg (by rw [hpost]; simp), if_neg hok]
      show (if ¬respOk status then
          ({ status := status, body := .errorJson ("Upstream status " ++ toString status) } :
            ProxyResponse)
        else match jsonRes with
          | .ok data => { status := 200, body := .json data }
          | .error msg =>
            { status := 500, body := .errorJson (if msg = "" then "Fetch failed" else msg) }).status
          = status
        ∧ ∃ msg, (if ¬respOk status then
          ({ status := status, body := .errorJson ("Upstream status " ++ toString status) } :
            ProxyResponse)
        else match jsonRes with
          | .ok data => { status := 200, body := .json data }
          | .error msg =>
            { status := 500, body := .errorJson (if msg = "" then "Fetch failed" else msg) }).body
          = .errorJson msg
      rw [if_pos (by rw [hnok]; decide)]
      exact ⟨rfl, "Upstream status " ++ toString status, rfl⟩
    · intro status data hu hok2
      subst hu
      unfold handler
      rw [if_neg hm, if_neg (by rw [hpost]; simp), if_neg hok]
      show (if ¬respOk status then
          ({ status := status, body := .errorJson ("Upstream status " ++ toString status) } :
            ProxyResponse)
        else { status := 200, body := .json data }) = { status := 200, body := .json data }
      rw [if_neg (by rw [hok2]; decide)]
    · intro hthrow
      cases hthrow with
      | inl h =>
        obtain ⟨msg, hu⟩ := h
        subst hu
        unfold handler
        rw [if_neg hm, if_neg (by rw [hpost]; simp), if_neg hok]
        exact ⟨rfl, if msg = "" then "Fetch failed" else msg, rfl⟩
      | inr h =>
        obtain ⟨status, msg, hu, hok2⟩ := h
        subst hu
        unfold handler
        rw [if_neg hm, if_neg (by rw [hpost]; simp), if_neg hok]
        show (if ¬respOk status then
            ({ status := status, body := .errorJson ("Upstream status " ++ toString status) } :
              ProxyResponse)
          else { status := 500,
                 body := .errorJson (if msg = "" then "Fetch failed" else msg) }).status = 500
          ∧ ∃ m, (if ¬respOk status then
            ({ status := status, body := .errorJson ("Upstream status " ++ toString status) } :
              ProxyResponse)
          else { status := 500,
                 body := .errorJson (if msg = "" then "Fetch failed" else msg) }).body
            = .errorJson m
        rw [if_neg (by rw [hok2]; decide)]
        exact ⟨rfl, if msg = "" then "Fetch failed" else msg, rfl⟩

/-- C7 (amended): when the leaderboard code or the session token is blank
after trimming, `handleSubmit` reports the inline validation error and
attempts no network call; the year field is not validated by `handleSubmit`
(see the counterexample). -/
theorem C7_amended_validation :
    ∀ (year code token : String) (confirmed : Bool) (cache : List (String × CacheEntry))
      (now now2 : Nat) (f : FetchOutcome),
      (jsTrim code = "" ∨ jsTrim token = "") →
      handleSubmit year code token confirmed cache now now2 f =
        { error := some validationMessage, networkCalled := false,
          cache := cache, loaded := none } := by
  intro year code token confirmed cache now now2 f h
  unfold handleSubmit
  rw [if_pos h]

/-- C7 counterexample: with the year empty but code and token present,
`handleSubmit` performs the network call and reports no validation error, so
a missing year does not trigger the claimed inline validation. -/
theorem C7_counterexample_missing_year :
    (handleSubmit "" "code" "token" true [] 0 0
        (.response 200 (.ok ⟨[]⟩))).networkCalled = true
    ∧ (handleSubmit "" "code" "token" true [] 0 0
        (.response 200 (.ok ⟨[]⟩))).error = none := by decide

/-- C9: a completion entry with `get_star_ts = 0` still produces a row in
`buildLeaderboard` (the entry is present), but its `completedAt` is the empty
string because `formatCompletionTime` returns "" for a falsy timestamp; the
row keeps timestamp 0 and a zero-timestamp row sorts first. -/
theorem C9_zero_timestamp_completion :
    ∀ (fmt : Nat → String) (leaderboard : Option LeaderboardDocument) (day part : String)
      (member : Member),
      member ∈ membersOf leaderboard →
      getCompletion member day part = some { get_star_ts := 0 } →
      (∃ row ∈ buildLeaderboard fmt leaderboard day part,
          row.id = member.id ∧ row.completedAt = "" ∧ row.timestamp = 0)
      ∧ (∃ h : buildLeaderboard fmt leaderboard day part ≠ [],
          ((buildLeaderboard fmt leaderboard day part).head h).timestamp = 0)
      ∧ formatCompletionTime fmt 0 = "" := by
  intro fmt leaderboard day part member hmem hcomp
  cases leaderboard with
  | none => simp [membersOf] at hmem
  | some lb =>
    have hbase : BaseRow.mk member.id (displayName member) (formatCompletionTime fmt 0) 0 ∈
          leaderboardBaseRows fmt lb day part := by
      refine List.mem_filterMap.mpr ⟨member, hmem, ?_⟩
      rw [hcomp]
    have hsmem : BaseRow.mk member.id (displayName member) (formatCompletionTime fmt 0) 0 ∈
          (leaderboardBaseRows fmt lb day part).insertionSort rowLE :=
      (List.perm_insertionSort rowLE _).mem_iff.mpr hbase
    refine ⟨?_, ?_, rfl⟩
    · obtain ⟨n, hget⟩ := List.mem_iff_get.mp hsmem
      refine ⟨withRank (n.1,
          BaseRow.mk member.id (displayName member) (formatCompletionTime fmt 0) 0),
        ?_, rfl, rfl, rfl⟩
      rw [buildLeaderboard_some]
      refine List.mem_map.mpr ⟨(n.1, _), ?_, rfl⟩
      refine List.mem_enum_iff_getElem?.mpr ?_
      show (List.insertionSort rowLE (leaderboardBaseRows fmt lb day part))[n.1]? =
        some (BaseRow.mk member.id (displayName member) (formatCompletionTime fmt 0) 0)
      rw [List.getElem?_eq_getElem n.2, ← List.get_eq_getElem _ n, hget]
    · cases hs : (leaderboardBaseRows fmt lb day part).insertionSort rowLE with
      | nil => rw [hs] at hsmem; simp at hsmem
      | cons x t =>
        have hsort : List.Sorted rowLE ((leaderboardBaseRows fmt lb day part).insertionSort rowLE) :=
          List.sorted_insertionSort rowLE _
        rw [hs] at hsort hsmem
        have hrows : buildLeaderboard fmt (some lb) day part =
            withRank (0, x) :: (List.enumFrom 1 t).map withRank := by
          rw [buildLeaderboard_some, hs, List.enum_cons, List.map_cons]
        have hx : x.timestamp = 0 := by
          cases List.mem_cons.mp hsmem with
          | inl heq => rw [← heq]
          | inr ht =>
            have hle := List.rel_of_sorted_cons hsort _ ht
            exact Nat.le_zero.mp hle
        refine ⟨by rw [hrows]; simp, ?_⟩
        have : (buildLeaderboard fmt (some lb) day part).head (by rw [hrows]; simp) =
            withRank (0, x) := by
          rw [List.head_eq_getElem]
          simp [hrows]
        rw [this]
        exact hx

/-- C10: the `findDefaultSelection` and `computePartAvailability` functions
of `src/unnamed/part_000` coincide extensionally with those of
`src/src/App.jsx` on every document. -/
theorem C10_variant_equivalence :
    (∀ leaderboard : Option LeaderboardDocument,
        V0.findDefaultSelection leaderboard = findDefaultSelection leaderboard)
    ∧ (∀ leaderboard : Option LeaderboardDocument,
        V0.computePartAvailability leaderboard = computePartAvailability leaderboard) :=
  ⟨fun _ => rfl, fun _ => rfl⟩

/-- Witness for C1 at the example document: index 0 is in range and its rank
is 1. -/
theorem C1_witness :
    ∃ h : 0 < (buildLeaderboard constFmt (some exampleDocument) "1" "1").length,
      ((buildLeaderboard constFmt (some exampleDocument) "1" "1").get ⟨0, h⟩).rank = 1 := by
  have h : 0 < (buildLeaderboard constFmt (some exampleDocument) "1" "1").length := by decide
  exact ⟨h, (C1_buildLeaderboard_sorted_ranked.1 constFmt (some exampleDocument) "1" "1").2 0 h⟩

/-- Witness for C2 at the example document and its rank-1 row. -/
theorem C2_witness :
    ∃ member ∈ membersOf (some exampleDocument),
      member.id = 2 ∧ getCompletion member "1" "1" = some { get_star_ts := 500 } :=
  (C2_rows_from_existing_completions constFmt (some exampleDocument)).1 "1" "1"
    (RankedRow.mk 2 "Anonymous #2" "t" 500 1) (by decide)

/-- Witness for C3: a fresh hit returns the cached outcome, and a fetch on an
empty cache stores the new entry. -/
theorem C3_witness :
    (handleSubmit "2024" "c" "t" true
        [("2024:c", { data := exampleDocument, fetchedAt := 100 })] 200 999
        (.response 200 (.ok day3Document)) =
      { error := none, networkCalled := false,
        cache := [("2024:c", { data := exampleDocument, fetchedAt := 100 })],
        loaded := some exampleDocument })
    ∧ ((handleSubmit "2024" "c" "t" true [] 0 999
          (.response 200 (.ok day3Document))).cache).lookup "2024:c" =
        some { data := day3Document, fetchedAt := 999 } := by
  constructor
  · exact (C3_cache_freshness "2024" "c" "t"
        [("2024:c", { data := exampleDocument, fetchedAt := 100 })] 100 200 999
        exampleDocument (.response 200 (.ok day3Document)) (by decide) (by decide)).1
      (by decide) (by decide)
  · exact ((C3_cache_freshness "2024" "c" "t" [] 0 0 999 exampleDocument
        (.response 200 (.ok day3Document)) (by decide) (by decide)).2
      (fun e h => by simp [List.lookup] at h)).2 200 day3Document rfl (by decide)

/-- Witness for C4 at the day-3 document: the selected day is a present key
and numerically minimal. -/
theorem C4_witness :
    (findDefaultSelection (some day3Document)).1 ∈
        allDayKeys (membersOf (some day3Document))
    ∧ ∀ d ∈ allDayKeys (membersOf (some day3Document)),
        jsNum (findDefaultSelection (some day3Document)).1 ≤ jsNum d :=
  ((C4_findDefaultSelection_smallest_day.1 (some day3Document) (by decide)).2.1 (by decide))

/-- Witness for C5: three days yield six rows for the matching player. -/
theorem C5_witness :
    (buildPlayerSubmissions constFmt (some exampleDocument) "2" ["1", "2", "3"]).length = 6 :=
  ((C5_buildPlayerSubmissions_shape constFmt (some exampleDocument) "2" ["1", "2", "3"]).2
    (Member.mk 2 none [("1", [("1", ⟨500⟩)])]) (by decide) (by decide)).1

/-- Witness for C6 covering the 204, 405, 400 and 200 branches. -/
theorem C6_witness :
    handler { method := "OPTIONS", body := none } (.networkError "x") =
        { status := 204, body := .empty }
    ∧ handler { method := "GET", body := none } (.networkError "x") =
        { status := 405, body := .empty }
    ∧ (handler { method := "POST", body := none } (.networkError "x")).status = 400
    ∧ handler { method := "POST", body := some postBody }
        (.response 200 (.ok exampleDocument)) =
        { status := 200, body := .json exampleDocument } := by
  refine ⟨?_, ?_, ?_, ?_⟩
  · exact (C6_handler_responses { method := "OPTIONS", body := none } (.networkError "x")).1 rfl
  · exact (C6_handler_responses { method := "GET", body := none }
        (.networkError "x")).2.1 (by decide) (by decide)
  · exact ((C6_handler_responses { method := "POST", body := none }
        (.networkError "x")).2.2.1 rfl (Or.inl rfl)).1
  · exact ((C6_handler_responses { method := "POST", body := some postBody }
        (.response 200 (.ok exampleDocument))).2.2.2 rfl rfl rfl rfl).2.1
      200 exampleDocument rfl (by decide)

/-- Witness for the amended C7: an empty code triggers the validation
outcome. -/
theorem C7_witness :
    handleSubmit "2024" "" "t" true [] 0 0 (.networkError "x") =
      { error := some validationMessage, networkCalled := false,
        cache := [], loaded := none } :=
  C7_amended_validation "2024" "" "t" true [] 0 0 (.networkError "x") (Or.inl rfl)

/-- Witness for C9 at a document with a zero-timestamp completion. -/
theorem C9_witness :
    ∃ row ∈ buildLeaderboard constFmt (some zeroTsDocument) "1" "1",
      row.id = 3 ∧ row.completedAt = "" ∧ row.timestamp = 0 :=
  (C9_zero_timestamp_completion constFmt (some zeroTsDocument) "1" "1"
    (Member.mk 3 (some "Zed") [("1", [("1", ⟨0⟩)])]) (by decide) (by decide)).1
